import Mathlib

/-!
Shallow embedding of the visible source of the uiua interpreter:
`src/io.rs` (the `io_op!` table, the `IoBackend` trait, `StdIo::import`,
`IoOp::run`, `value_to_image`) and `src/main.rs` (`working_file_path`).
Machine floats (`f64`) are modelled as rationals, byte buffers as `List Nat`,
and the operand stack as a `List Value` with the top element at the head.
-/

/-- Modelled from the spec: the typed element buffer of a value (`array.rs` /
`value.rs` are not in the visible source). Element types are `Num` (float64,
modelled as `ℚ`), `Byte` (u8, modelled as `Nat`), and `Char`. The `strs`
case models the boxed 1-D array of strings pushed by `args`/`flines`/
`flistdir` (spec: "1-D array of strings"). -/
inductive ArrData where
  | nums (xs : List ℚ)
  | bytes (xs : List Nat)
  | chars (cs : List Char)
  | strs (ss : List String)
  deriving DecidableEq

/-- Modelled from the spec: an array carries a shape (ordered list of
dimensions) and a typed element buffer. -/
structure UArray where
  shape : List Nat
  data : ArrData
  deriving DecidableEq

/-- Modelled from the spec: a runtime value is an array or a function
reference (the visible `io.rs` only distinguishes the two via `is_array`). -/
inductive Value where
  | arr (a : UArray)
  | func (id : Nat)
  deriving DecidableEq

def Value.is_array : Value → Bool
  | .arr _ => true
  | .func _ => false

/-- `Value::array()`: the underlying array. The source only calls this behind
an `is_array` guard; on a function value we return an empty array. -/
def Value.array : Value → UArray
  | .arr a => a
  | .func _ => ⟨[], .nums []⟩

def Value.into_array (v : Value) : UArray := v.array

def UArray.rank (a : UArray) : Nat := a.shape.length

def UArray.is_chars : UArray → Bool
  | ⟨_, .chars _⟩ => true
  | _ => false

def UArray.is_numbers : UArray → Bool
  | ⟨_, .nums _⟩ => true
  | _ => false

def UArray.is_bytes : UArray → Bool
  | ⟨_, .bytes _⟩ => true
  | _ => false

/-- `Array::chars()`: the character buffer (empty for non-char arrays; the
source only calls it behind an `is_chars` guard). -/
def UArray.chars : UArray → List Char
  | ⟨_, .chars cs⟩ => cs
  | _ => []

def UArray.numbers : UArray → List ℚ
  | ⟨_, .nums xs⟩ => xs
  | _ => []

def UArray.bytesBuf : UArray → List Nat
  | ⟨_, .bytes xs⟩ => xs
  | _ => []

def UArray.into_numbers (a : UArray) : List ℚ := a.numbers

def UArray.into_bytes (a : UArray) : List Nat := a.bytesBuf

/-- Modelled from the spec: `Value::from(String)` builds a rank-1 character
array (a string value). -/
def Value.ofString (s : String) : Value := .arr ⟨[s.data.length], .chars s.data⟩

/-- Modelled from the spec: a scalar number value (shape `[]`, rank 0). -/
def Value.ofNum (x : ℚ) : Value := .arr ⟨[], .nums [x]⟩

/-- Modelled from the spec: a boolean pushed by `fexists`/`fisfile` is a
scalar number 1/0. -/
def Value.ofBool (b : Bool) : Value := .arr ⟨[], .nums [if b then 1 else 0]⟩

/-- Modelled from the spec: `Array::from_iter` over string values builds the
1-D array of strings pushed by `args`/`flines`/`flistdir`. -/
def Value.ofStrings (ss : List String) : Value := .arr ⟨[ss.length], .strs ss⟩

/-- Modelled from the spec: the `Display` rendering of a value (`value.rs` /
`grid_fmt.rs` are not in the visible source). A character array displays as
its text; the other renderings are never inspected by any claim (the only
`Display` use in `io.rs` reachable here, `fwritestr`, is guarded by
`is_chars`). -/
def Value.display : Value → String
  | .arr ⟨_, .chars cs⟩ => String.mk cs
  | .arr ⟨_, .nums xs⟩ => String.intercalate " " (xs.map toString)
  | .arr ⟨_, .bytes xs⟩ => String.intercalate " " (xs.map toString)
  | .arr ⟨_, .strs ss⟩ => String.intercalate " " ss
  | .func i => toString i

/-- Modelled from the spec: `Value::grid_string()` (grid-formatted
representation, `grid_fmt.rs` absent); its exact text is never inspected. -/
def Value.grid_string (v : Value) : String := v.display

/-- The `IoOp` enum generated by the `io_op!` macro in `src/io.rs`. -/
inductive IoOp where
  | Show
  | Print
  | Println
  | ScanLn
  | Args
  | Var
  | Rand
  | FReadStr
  | FWriteStr
  | FReadBytes
  | FWriteBytes
  | FLines
  | FExists
  | FListDir
  | FIsFile
  | Import
  | Now
  | ImRead
  | ImWrite
  | ImShow
  deriving DecidableEq, Repr, Fintype

/-- `IoOp::name` as generated by the `io_op!` instantiation. -/
def IoOp.name : IoOp → String
  | .Show => "show"
  | .Print => "print"
  | .Println => "println"
  | .ScanLn => "scanln"
  | .Args => "args"
  | .Var => "var"
  | .Rand => "rand"
  | .FReadStr => "freadstr"
  | .FWriteStr => "fwritestr"
  | .FReadBytes => "freadbytes"
  | .FWriteBytes => "fwritebytes"
  | .FLines => "flines"
  | .FExists => "fexists"
  | .FListDir => "flistdir"
  | .FIsFile => "fisfile"
  | .Import => "import"
  | .Now => "now"
  | .ImRead => "imread"
  | .ImWrite => "imwrite"
  | .ImShow => "imshow"

/-- `IoOp::from_name`: the string match generated by the macro, written as
the equivalent chain of equality tests. -/
def IoOp.from_name (s : String) : Option IoOp :=
  if s = "show" then some .Show
  else if s = "print" then some .Print
  else if s = "println" then some .Println
  else if s = "scanln" then some .ScanLn
  else if s = "args" then some .Args
  else if s = "var" then some .Var
  else if s = "rand" then some .Rand
  else if s = "freadstr" then some .FReadStr
  else if s = "fwritestr" then some .FWriteStr
  else if s = "freadbytes" then some .FReadBytes
  else if s = "fwritebytes" then some .FWriteBytes
  else if s = "flines" then some .FLines
  else if s = "fexists" then some .FExists
  else if s = "flistdir" then some .FListDir
  else if s = "fisfile" then some .FIsFile
  else if s = "import" then some .Import
  else if s = "now" then some .Now
  else if s = "imread" then some .ImRead
  else if s = "imwrite" then some .ImWrite
  else if s = "imshow" then some .ImShow
  else none

/-- `IoOp::args` from the `io_op!` table: the first literal of each row. -/
def IoOp.args : IoOp → Nat
  | .Show => 1
  | .Print => 1
  | .Println => 1
  | .ScanLn => 0
  | .Args => 0
  | .Var => 1
  | .Rand => 0
  | .FReadStr => 1
  | .FWriteStr => 1
  | .FReadBytes => 1
  | .FWriteBytes => 1
  | .FLines => 1
  | .FExists => 1
  | .FListDir => 1
  | .FIsFile => 1
  | .Import => 1
  | .Now => 0
  | .ImRead => 1
  | .ImWrite => 1
  | .ImShow => 1

/-- `IoOp::outputs` from the `io_op!` table: only the four rows written with
a `(0)` annotation get `Some(0)`; every other op falls to the macro's
`_ => Some(1)` default. -/
def IoOp.outputs : IoOp → Option Nat
  | .Show => some 0
  | .Print => some 0
  | .Println => some 0
  | .ImShow => some 0
  | _ => some 1

/-- Rust `i as u8` applied to an integral float value: saturating cast to
the range `[0, 255]`. -/
def intAsU8 (i : Int) : Nat := if i < 0 then 0 else min 255 i.toNat

/-- Rust `x as u8` on an `f64`: truncate toward zero, saturate to
`[0, 255]` (for `x ≥ 0` truncation is the floor; negative values saturate
to 0 either way; `NaN`, absent from `ℚ`, is not modelled). -/
def f64AsU8 (x : ℚ) : Nat := intAsU8 ⌊x⌋

/-- Modelled from the spec: a decoded image of the external `image` crate
(`DynamicImage` restricted to the gray/RGB/RGBA buffers `io.rs` builds). -/
structure DynImage where
  channels : Nat
  width : Nat
  height : Nat
  data : List Nat
  deriving DecidableEq

/-- Modelled from the spec: `ImageBuffer::from_raw` succeeds exactly when
the flat buffer has the expected `width * height * channels` length. -/
def imageFromRaw (channels w h : Nat) (data : List Nat) : Option DynImage :=
  if data.length == w * h * channels then some ⟨channels, w, h, data⟩ else none

/-- `ImageOutputFormat` of the `image` crate (the variants `io.rs` names). -/
inductive ImageOutputFormat where
  | Jpeg (quality : Nat)
  | Png
  | Bmp
  | Gif
  | Ico
  | Tga
  | Tiff
  deriving DecidableEq

def ImageOutputFormat.tag : ImageOutputFormat → Nat
  | .Jpeg _ => 0
  | .Png => 1
  | .Bmp => 2
  | .Gif => 3
  | .Ico => 4
  | .Tga => 5
  | .Tiff => 6

/-- Modelled from the spec: the byte serialisation of an image
(`DynamicImage::write_to`). The spec's image round-trip property asserts the
lossless formats (`png`, `bmp`, `tiff`) decode back to the written image; we
realise that with a concrete header-plus-pixels encoding. -/
def encodeImage (img : DynImage) (fmt : ImageOutputFormat) : List Nat :=
  fmt.tag :: img.channels :: img.width :: img.height :: img.data

/-- Modelled from the spec: `image::load_from_memory`, the partial inverse
of `encodeImage`. -/
def load_from_memory (bs : List Nat) : Option DynImage :=
  match bs with
  | _ :: c :: w :: h :: data =>
      if (c == 1 || c == 3 || c == 4) && data.length == w * h * c then
        some ⟨c, w, h, data⟩
      else none
  | _ => none

/-- Appends an opaque alpha byte after every RGB triple
(`DynamicImage::into_rgba8` on an RGB buffer). -/
def rgbToRgba : List Nat → List Nat
  | r :: g :: b :: rest => r :: g :: b :: 255 :: rgbToRgba rest
  | rest => rest

/-- Modelled from the spec: `DynamicImage::into_rgba8` — `imread` always
yields RGBA; a gray pixel `g` expands to `(g, g, g, 255)`, RGB gains an
opaque alpha, RGBA is unchanged. -/
def DynImage.into_rgba8 (img : DynImage) : DynImage :=
  match img.channels with
  | 1 => ⟨4, img.width, img.height, img.data.flatMap fun g => [g, g, g, 255]⟩
  | 3 => ⟨4, img.width, img.height, rgbToRgba img.data⟩
  | _ => { img with channels := 4 }

/-- `value_to_image` from `src/io.rs`: rank-3 check, element conversion
(numbers are `(*f * 255.0).floor() as u8`, bytes pass through), then the
last-dimension dispatch to `from_raw`. -/
def value_to_image (value : Value) : Except String DynImage :=
  if !value.is_array || !(value.array.rank == 3) then
    .error "Image must be a rank 3 numeric array"
  else
    let arr := value.array
    let bytesRes : Except String (List Nat) :=
      if arr.is_numbers then
        .ok (arr.numbers.map fun f => f64AsU8 (f * 255))
      else if arr.is_bytes then
        .ok arr.bytesBuf
      else
        .error "Image must be a rank 3 numeric array"
    match bytesRes with
    | .error e => .error e
    | .ok bytes =>
      match arr.shape with
      | [width, height, pxSize] =>
          if pxSize == 1 then
            match imageFromRaw 1 width height bytes with
            | some img => .ok img
            | none => .error "Failed to create image"
          else if pxSize == 3 then
            match imageFromRaw 3 width height bytes with
            | some img => .ok img
            | none => .error "Failed to create image"
          else if pxSize == 4 then
            match imageFromRaw 4 width height bytes with
            | some img => .ok img
            | none => .error "Failed to create image"
          else
            .error ("The last dimension of an image array must be 1, 3, or 4, but it is "
              ++ toString pxSize)
      | _ => .error "unreachable: shape checked above"

/-- `value_to_image_bytes` from `src/io.rs` (`write_to` into a cursor,
modelled by `encodeImage`). -/
def value_to_image_bytes (value : Value) (format : ImageOutputFormat) :
    Except String (List Nat) :=
  match value_to_image value with
  | .error e => .error e
  | .ok img => .ok (encodeImage img format)

/-- Modelled from the spec/std: the UTF-8 byte encoding of a string
(`String::into_bytes`). The byte-level multi-byte format is abstracted to
one code point per entry; no claim relates the written bytes to a decoded
string. -/
def utf8Encode (s : String) : List Nat := s.data.map Char.toNat

def natToChar (n : Nat) : Option Char :=
  if n.isValidChar then some (Char.ofNat n) else none

/-- Modelled from the spec/std: `String::from_utf8`, the partial inverse of
`utf8Encode`. -/
def utf8Decode (bs : List Nat) : Option String :=
  (bs.mapM natToChar).map fun cs => String.mk cs

/-- Rust `str::lines`: split on newlines, dropping a final empty segment
and any trailing carriage returns. -/
def rustLines (s : String) : List String :=
  let parts := s.splitOn "\n"
  let parts := if parts.getLast? == some "" then parts.dropLast else parts
  parts.map fun l => if l.endsWith "\r" then l.dropRight 1 else l

/-- The effects a dispatched IO op performs through the backend. -/
inductive Effect where
  | printed (s : String)
  | wrote (path : String) (contents : List Nat)
  | shown (img : DynImage)
  deriving DecidableEq

/-- Pure model of the `IoBackend` trait: the responses the host gives to
the (at most one per method) backend calls of a single dispatch. Fallible
methods answer with `Except`, mirroring `RuntimeResult`. -/
structure Backend where
  scanLine : String
  argsList : List String
  varFn : String → Option String
  randVal : ℚ
  nowVal : ℚ
  fileExists : String → Bool
  isFile : String → Except String Bool
  listDir : String → Except String (List String)
  readFile : String → Except String (List Nat)
  writeFile : String → List Nat → Except String Unit
  importFn : String → Except String (List Value)
  showImage : DynImage → Except String Unit

/-- `CallEnv::pop`: take the top of the operand stack or fail with a stack
underflow. -/
def pop1 (stack : List Value) : Except String (Value × List Value) :=
  match stack with
  | [] => .error "Stack underflow"
  | v :: rest => .ok (v, rest)

/-- The repeated source pattern
`if !v.is_array() || !v.array().is_chars() { return Err(msg) }` followed by
`v.array().chars().iter().collect::<String>()`. -/
def strArg (v : Value) (msg : String) : Except String String :=
  if !(v.is_array && v.array.is_chars) then .error msg
  else .ok (String.mk v.array.chars)

/-- Rust `str::split('.')` over the character list: the (never empty) list
of segments between dots. -/
def splitDot : List Char → List (List Char)
  | [] => [[]]
  | c :: rest =>
      let r := splitDot rest
      if c = '.' then [] :: r
      else
        match r with
        | seg :: segs => (c :: seg) :: segs
        | [] => [[c]]

/-- The extension dispatch of the `ImWrite` arm:
`path.split('.').last().unwrap_or("")` feeding the format match. -/
def extOf (path : String) : String :=
  String.mk (((splitDot path.data).getLast?).getD [])

def imwriteFormat (ext : String) : ImageOutputFormat :=
  if ext == "jpg" || ext == "jpeg" then .Jpeg 100
  else if ext == "png" then .Png
  else if ext == "bmp" then .Bmp
  else if ext == "gif" then .Gif
  else if ext == "ico" then .Ico
  else if ext == "tga" then .Tga
  else if ext == "tiff" then .Tiff
  else .Png

/-- The `ImRead` arm after the file bytes are obtained: decode, convert to
RGBA, and build the `[height, width, 4]` byte array that is pushed. -/
def imreadValue (bytes : List Nat) : Except String Value :=
  match load_from_memory bytes with
  | none => .error "Failed to read image"
  | some image =>
      let rgba := image.into_rgba8
      .ok (.arr ⟨[rgba.height, rgba.width, 4], .bytes rgba.data⟩)

/-- `IoOp::run` from `src/io.rs`, arm by arm. The result is the new operand
stack together with the effects performed; errors are the `env.error`
messages of the source. -/
def IoOp.run (op : IoOp) (io : Backend) (stack : List Value) :
    Except String (List Value × List Effect) :=
  match op with
  | .Show =>
      match pop1 stack with
      | .error e => .error e
      | .ok (v, s) => .ok (s, [.printed v.grid_string, .printed "\n"])
  | .Print =>
      match pop1 stack with
      | .error e => .error e
      | .ok (v, s) => .ok (s, [.printed v.display])
  | .Println =>
      match pop1 stack with
      | .error e => .error e
      | .ok (v, s) => .ok (s, [.printed v.display, .printed "\n"])
  | .ScanLn => .ok (Value.ofString io.scanLine :: stack, [])
  | .Args => .ok (Value.ofStrings io.argsList :: stack, [])
  | .Var =>
      match pop1 stack with
      | .error e => .error e
      | .ok (name, s) =>
        match strArg name "Argument to var must be a string" with
        | .error e => .error e
        | .ok key => .ok (Value.ofString ((io.varFn key).getD "") :: s, [])
  | .Rand => .ok (Value.ofNum io.randVal :: stack, [])
  | .FReadStr =>
      match pop1 stack with
      | .error e => .error e
      | .ok (p, s) =>
        match strArg p "Path must be a string" with
        | .error e => .error e
        | .ok path =>
          match io.readFile path with
          | .error e => .error e
          | .ok bytes =>
            match utf8Decode bytes with
            | none => .error "Failed to read file: invalid utf-8"
            | some contents => .ok (Value.ofString contents :: s, [])
  | .FWriteStr =>
      match pop1 stack with
      | .error e => .error e
      | .ok (path, s1) =>
        match pop1 s1 with
        | .error e => .error e
        | .ok (contents, s2) =>
          if !(path.is_array && path.array.is_chars) then
            .error "Path must be a string"
          else if !(contents.is_array && contents.array.is_chars) then
            .error "Contents must be a string"
          else
            let pathS := String.mk path.array.chars
            match io.writeFile pathS (utf8Encode contents.display) with
            | .error e => .error e
            | .ok _ => .ok (s2, [.wrote pathS (utf8Encode contents.display)])
  | .FReadBytes =>
      match pop1 stack with
      | .error e => .error e
      | .ok (p, s) =>
        match strArg p "Path must be a string" with
        | .error e => .error e
        | .ok path =>
          match io.readFile path with
          | .error e => .error e
          | .ok contents =>
              .ok (.arr ⟨[contents.length], .bytes contents⟩ :: s, [])
  | .FWriteBytes =>
      match pop1 stack with
      | .error e => .error e
      | .ok (path, s1) =>
        match pop1 s1 with
        | .error e => .error e
        | .ok (contents, s2) =>
          if !(path.is_array && path.array.is_chars) then
            .error "Path must be a string"
          else if !contents.is_array then
            .error "Contents must be an array"
          else
            let pathS := String.mk path.array.chars
            let arr := contents.into_array
            let bytesRes : Except String (List Nat) :=
              if arr.is_numbers then .ok (arr.into_numbers.map f64AsU8)
              else if arr.is_bytes then .ok arr.into_bytes
              else .error "Contents must be a numeric array"
            match bytesRes with
            | .error e => .error e
            | .ok bs =>
              match io.writeFile pathS bs with
              | .error e => .error e
              | .ok _ => .ok (s2, [.wrote pathS bs])
  | .FLines =>
      match pop1 stack with
      | .error e => .error e
      | .ok (p, s) =>
        match strArg p "Path must be a string" with
        | .error e => .error e
        | .ok path =>
          match io.readFile path with
          | .error e => .error e
          | .ok bytes =>
            match utf8Decode bytes with
            | none => .error "Failed to read file: invalid utf-8"
            | some contents =>
                .ok (Value.ofStrings (rustLines contents) :: s, [])
  | .FExists =>
      match pop1 stack with
      | .error e => .error e
      | .ok (p, s) =>
        match strArg p "Path must be a string" with
        | .error e => .error e
        | .ok path => .ok (Value.ofBool (io.fileExists path) :: s, [])
  | .FListDir =>
      match pop1 stack with
      | .error e => .error e
      | .ok (p, s) =>
        match strArg p "Path must be a string" with
        | .error e => .error e
        | .ok path =>
          match io.listDir path with
          | .error e => .error e
          | .ok paths => .ok (Value.ofStrings paths :: s, [])
  | .FIsFile =>
      match pop1 stack with
      | .error e => .error e
      | .ok (p, s) =>
        match strArg p "Path must be a string" with
        | .error e => .error e
        | .ok path =>
          match io.isFile path with
          | .error e => .error e
          | .ok b => .ok (Value.ofBool b :: s, [])
  | .Import =>
      match pop1 stack with
      | .error e => .error e
      | .ok (name, s) =>
        match strArg name "Path to import must be a string" with
        | .error e => .error e
        | .ok nameS =>
          match io.importFn nameS with
          | .error e => .error e
          | .ok values => .ok (values.reverse ++ s, [])
  | .Now => .ok (Value.ofNum io.nowVal :: stack, [])
  | .ImRead =>
      match pop1 stack with
      | .error e => .error e
      | .ok (p, s) =>
        match strArg p "Path must be a string" with
        | .error e => .error e
        | .ok path =>
          match io.readFile path with
          | .error e => .error e
          | .ok bytes =>
            match imreadValue bytes with
            | .error e => .error e
            | .ok v => .ok (v :: s, [])
  | .ImWrite =>
      match pop1 stack with
      | .error e => .error e
      | .ok (path, s1) =>
        match pop1 s1 with
        | .error e => .error e
        | .ok (value, s2) =>
          match strArg path "Path must be a string" with
          | .error e => .error e
          | .ok pathS =>
            let output_format := imwriteFormat (extOf pathS)
            match value_to_image_bytes value output_format with
            | .error e => .error e
            | .ok bytes =>
              match io.writeFile pathS bytes with
              | .error e => .error e
              | .ok _ => .ok (s2, [.wrote pathS bytes])
  | .ImShow =>
      match pop1 stack with
      | .error e => .error e
      | .ok (value, s) =>
        match value_to_image value with
        | .error e => .error e
        | .ok image =>
          match io.showImage image with
          | .error e => .error e
          | .ok _ => .ok (s, [.shown image])

/-- The import cache of `StdIo` (`imports: HashMap<String, Vec<Value>>`),
modelled as an association list where insertion prepends (later entries
shadow earlier ones, like `HashMap::insert`). -/
abbrev ImportCache := List (String × List Value)

def lookupCache : ImportCache → String → Option (List Value)
  | [], _ => none
  | (k, v) :: rest, path => if k == path then some v else lookupCache rest path

/-- `StdIo::import` from `src/io.rs`: if the path is not cached, load and
run the file (which, running against the same backend, may itself extend
the cache — `runWith` models `Assembly::load_file(path)?.run_with_backend(&mut *self)`),
then insert its final stack; finally return the cached stack. The returned
`Bool` records whether the file was actually loaded and executed on this
call (the observable side effect of the sub-run). -/
def stdIoImport
    (runWith : ImportCache → String → Except String (List Value × ImportCache))
    (imports : ImportCache) (path : String) :
    Except String (List Value × ImportCache × Bool) :=
  match lookupCache imports path with
  | some stack => .ok (stack, imports, false)
  | none =>
      match runWith imports path with
      | .error e => .error e
      | .ok (stack, imports1) => .ok (stack, (path, stack) :: imports1, true)

/-- A directory entry as `working_file_path` inspects it: its path and the
extension `Path::extension` reports. -/
structure DirEntry where
  path : String
  ext : Option String
  deriving DecidableEq

/-- The filesystem facts `working_file_path` in `src/main.rs` consults:
which paths exist, and the entries of `read_dir(".")` and `read_dir("src")`
(a failed `read_dir` is the empty list, matching the
`into_iter().chain(..).flatten().filter_map(Result::ok)` pipeline). -/
structure WorkFS where
  pathExists : String → Bool
  dotEntries : List DirEntry
  srcEntries : List DirEntry

inductive NoWorkingFile where
  | NoFile
  | MultipleFiles
  deriving DecidableEq, Repr

/-- The candidate list of `working_file_path`: the `.ua`-extension entries
of `.` followed by those of `src/`. -/
def uaPaths (fs : WorkFS) : List String :=
  ((fs.dotEntries ++ fs.srcEntries).filter fun entry => entry.ext == some "ua").map
    DirEntry.path

/-- `working_file_path` from `src/main.rs`: prefer `src/main.ua`, then
`main.ua`; otherwise dispatch on the number of nearby `.ua` files. -/
def working_file_path (fs : WorkFS) : Except NoWorkingFile String :=
  let main := if fs.pathExists "src/main.ua" then "src/main.ua" else "main.ua"
  if fs.pathExists main then .ok main
  else
    match uaPaths fs with
    | [] => .error .NoFile
    | [p] => .ok p
    | _ => .error .MultipleFiles

/-- The pure pipeline of the `ImWrite` arm after the path is decoded: pick
the output format from the extension and encode the value. -/
def imwriteBytes (value : Value) (path : String) : Except String (List Nat) :=
  value_to_image_bytes value (imwriteFormat (extOf path))

/-- A concrete backend used to evaluate dispatches on closed inputs. -/
def sampleBackend : Backend :=
  { scanLine := ""
    argsList := []
    varFn := fun _ => none
    randVal := 0
    nowVal := 0
    fileExists := fun _ => false
    isFile := fun _ => .error "file error"
    listDir := fun _ => .error "file error"
    readFile := fun _ => .error "file error"
    writeFile := fun _ _ => .ok ()
    importFn := fun _ => .ok [Value.ofNum 1, Value.ofNum 2]
    showImage := fun _ => .ok () }

/-- C1: the `io_op!` table declares `args() = 1` and `outputs() = Some(1)`
for `fwritestr`, `fwritebytes` and `imwrite`, while the corresponding `run`
arms pop two values (path and contents, shown on a concrete dispatch that
takes a three-value stack to a one-value stack) and push none — so
dispatching does not pop `args()` items nor push `outputs()` results for
these ops, and the claimed `args() = 2` / `outputs() = Some(0)` does not
hold of the table. -/
theorem fwrite_ops_declare_one_arg_but_pop_two :
    IoOp.FWriteStr.args = 1 ∧ IoOp.FWriteStr.outputs = some 1 ∧
    IoOp.FWriteBytes.args = 1 ∧ IoOp.FWriteBytes.outputs = some 1 ∧
    IoOp.ImWrite.args = 1 ∧ IoOp.ImWrite.outputs = some 1 ∧
    IoOp.run .FWriteStr sampleBackend
        [Value.ofString "f", Value.ofString "x", Value.ofNum 9] =
      .ok ([Value.ofNum 9], [.wrote "f" [120]]) :=
  ⟨rfl, rfl, rfl, rfl, rfl, rfl, by rfl⟩

/-- C2: the `io_op!` table gives `Import` the macro default
`outputs() = Some(1)` (the macro cannot express `None`), while the `Import`
arm of `run` pushes every value of the imported stack in order — here two
values, the first imported value ending up deeper in the stack. -/
theorem import_outputs_some_one_but_pushes_stack :
    IoOp.Import.outputs = some 1 ∧
    IoOp.run .Import sampleBackend [Value.ofString "lib"] =
      .ok ([Value.ofNum 2, Value.ofNum 1], []) :=
  ⟨rfl, by rfl⟩

/-- C5 counterexample: `fwritestr` rejects a numeric contents argument and
`fwritebytes` rejects a character contents argument, so "either a char
array or a numeric array is accepted" fails for both ops. -/
theorem fwrite_contents_kind_counterexample :
    IoOp.run .FWriteStr sampleBackend [Value.ofString "f", Value.ofNum 3] =
      .error "Contents must be a string" ∧
    IoOp.run .FWriteBytes sampleBackend
        [Value.ofString "f", Value.ofString "abc"] =
      .error "Contents must be a numeric array" :=
  ⟨by rfl, by rfl⟩

lemma from_name_name_eq (op : IoOp) : IoOp.from_name op.name = some op := by
  cases op <;> rfl

/-- C10: the IO-op name mapping is a bijection on the op set — `from_name`
inverts `name` on every op, and `from_name` returns `none` exactly on the
strings that are not the name of any op. -/
theorem io_op_name_bijection :
    (∀ op : IoOp, IoOp.from_name op.name = some op) ∧
    (∀ s : String, IoOp.from_name s = none ↔ ∀ op : IoOp, op.name ≠ s) := by
  refine ⟨from_name_name_eq, fun s => ⟨?_, ?_⟩⟩
  · intro hnone op hop
    have h := from_name_name_eq op
    rw [hop, hnone] at h
    cases h
  · intro h
    unfold IoOp.from_name
    rw [if_neg fun hs => h .Show hs.symm,
      if_neg fun hs => h .Print hs.symm,
      if_neg fun hs => h .Println hs.symm,
      if_neg fun hs => h .ScanLn hs.symm,
      if_neg fun hs => h .Args hs.symm,
      if_neg fun hs => h .Var hs.symm,
      if_neg fun hs => h .Rand hs.symm,
      if_neg fun hs => h .FReadStr hs.symm,
      if_neg fun hs => h .FWriteStr hs.symm,
      if_neg fun hs => h .FReadBytes hs.symm,
      if_neg fun hs => h .FWriteBytes hs.symm,
      if_neg fun hs => h .FLines hs.symm,
      if_neg fun hs => h .FExists hs.symm,
      if_neg fun hs => h .FListDir hs.symm,
      if_neg fun hs => h .FIsFile hs.symm,
      if_neg fun hs => h .Import hs.symm,
      if_neg fun hs => h .Now hs.symm,
      if_neg fun hs => h .ImRead hs.symm,
      if_neg fun hs => h .ImWrite hs.symm,
      if_neg fun hs => h .ImShow hs.symm]

/-- Witness for C10 at concrete inputs: `"show"` maps back to `Show`, and a
string that names no op maps to `none`. -/
theorem io_op_name_bijection_witness :
    IoOp.from_name (IoOp.name .Show) = some IoOp.Show ∧
    IoOp.from_name "nosuchop" = none :=
  ⟨io_op_name_bijection.1 .Show,
    (io_op_name_bijection.2 "nosuchop").mpr (by decide)⟩

/-- C4: `StdIo::import` is cached by the literal path string — whenever a
first import of `path` succeeds, importing `path` again on the resulting
cache returns the same stack, leaves the cache unchanged, and does not load
or execute the file again (the `Bool` execution flag of the second call is
`false`). -/
theorem import_cached_second_call
    (runWith : ImportCache → String → Except String (List Value × ImportCache))
    (imports : ImportCache) (path : String) (stack : List Value)
    (imports' : ImportCache) (executed : Bool)
    (h : stdIoImport runWith imports path = .ok (stack, imports', executed)) :
    stdIoImport runWith imports' path = .ok (stack, imports', false) := by
  unfold stdIoImport at h ⊢
  cases hc : lookupCache imports path with
  | some st =>
      rw [hc] at h
      cases h
      rw [hc]
  | none =>
      rw [hc] at h
      cases hr : runWith imports path with
      | error e => rw [hr] at h; cases h
      | ok p =>
          obtain ⟨st, imps⟩ := p
          rw [hr] at h
          cases h
          simp [lookupCache]

/-- Witness for C4: a first import of `"lib.ua"` on an empty cache executes
the file; the theorem then gives the second call verbatim. -/
theorem import_cached_second_call_witness :
    stdIoImport (fun c _ => .ok ([Value.ofNum 10], c))
        [("lib.ua", [Value.ofNum 10])] "lib.ua" =
      .ok ([Value.ofNum 10], [("lib.ua", [Value.ofNum 10])], false) :=
  import_cached_second_call (fun c _ => .ok ([Value.ofNum 10], c)) [] "lib.ua"
    [Value.ofNum 10] [("lib.ua", [Value.ofNum 10])] true (by rfl)

/-- C7: working-file resolution prefers `src/main.ua`, then `main.ua`; with
neither present it dispatches on the list of `.ua` entries of `.` and
`src/`: none yields `NoFile`, exactly one resolves to that file, and more
than one yields `MultipleFiles`. -/
theorem working_file_resolution (fs : WorkFS) :
    (fs.pathExists "src/main.ua" = true →
      working_file_path fs = .ok "src/main.ua") ∧
    (fs.pathExists "src/main.ua" = false → fs.pathExists "main.ua" = true →
      working_file_path fs = .ok "main.ua") ∧
    (fs.pathExists "src/main.ua" = false → fs.pathExists "main.ua" = false →
      (uaPaths fs = [] → working_file_path fs = .error .NoFile) ∧
      (∀ p, uaPaths fs = [p] → working_file_path fs = .ok p) ∧
      (1 < (uaPaths fs).length →
        working_file_path fs = .error .MultipleFiles)) := by
  refine ⟨fun h1 => ?_, fun h1 h2 => ?_,
    fun h1 h2 => ⟨fun hp => ?_, fun p hp => ?_, fun hp => ?_⟩⟩
  · simp [working_file_path, h1]
  · simp [working_file_path, h1, h2]
  · simp [working_file_path, h1, h2, hp]
  · simp [working_file_path, h1, h2, hp]
  · cases hu : uaPaths fs with
    | nil => rw [hu] at hp; cases hp
    | cons a t =>
      cases t with
      | nil => rw [hu] at hp; exact absurd hp (by simp)
      | cons b t2 => simp [working_file_path, h1, h2, hu]

/-- Witness for C7 at two concrete filesystems: one where `src/main.ua`
exists, one with neither main file and a single nearby `.ua` entry. -/
theorem working_file_resolution_witness :
    working_file_path ⟨fun p => p == "src/main.ua", [], []⟩ =
      .ok "src/main.ua" ∧
    working_file_path ⟨fun _ => false, [⟨"./a.ua", some "ua"⟩], []⟩ =
      .ok "./a.ua" :=
  ⟨(working_file_resolution ⟨fun p => p == "src/main.ua", [], []⟩).1 (by rfl),
    ((working_file_resolution
        ⟨fun _ => false, [⟨"./a.ua", some "ua"⟩], []⟩).2.2 rfl rfl).2.1
      "./a.ua" (by rfl)⟩

lemma strArg_chars (sh : List Nat) (cs : List Char) (msg : String) :
    strArg (.arr ⟨sh, .chars cs⟩) msg = .ok (String.mk cs) := rfl

lemma strArg_not {v : Value} (msg : String)
    (hv : (v.is_array && v.array.is_chars) = false) :
    strArg v msg = .error msg := by
  simp [strArg, hv]

/-- C9: `var` pops one string name and pushes exactly one value — the
backend's value for the decoded name; when the backend reports the name
unset (`None`), the empty string is pushed instead of failing. -/
theorem var_pushes_value_empty_when_unset (io : Backend) (sh : List Nat)
    (cs : List Char) (s : List Value) :
    IoOp.run .Var io (.arr ⟨sh, .chars cs⟩ :: s) =
      .ok (Value.ofString ((io.varFn (String.mk cs)).getD "") :: s, []) ∧
    (io.varFn (String.mk cs) = none →
      IoOp.run .Var io (.arr ⟨sh, .chars cs⟩ :: s) =
        .ok (Value.ofString "" :: s, [])) := by
  refine ⟨rfl, fun h => ?_⟩
  have h1 : IoOp.run .Var io (.arr ⟨sh, .chars cs⟩ :: s) =
      .ok (Value.ofString ((io.varFn (String.mk cs)).getD "") :: s, []) := rfl
  rw [h] at h1
  exact h1

/-- Witness for C9: the sample backend has every variable unset; `var` on
the name `"HOME"` pushes the empty string. -/
theorem var_pushes_value_empty_when_unset_witness :
    IoOp.run .Var sampleBackend [Value.ofString "HOME"] =
      .ok ([Value.ofString ""], []) :=
  (var_pushes_value_empty_when_unset sampleBackend ["HOME".data.length]
    "HOME".data []).2 rfl

/-- C8: every IO op that requires a string argument (the path-taking file
and image ops, `var`, and `import`) rejects a value that is not a character
array with its type-mismatch error, and decodes a character array by
collecting its characters into the string handed to the backend: the
backend method is consulted exactly at `String.mk cs`. -/
theorem string_args_checked_and_decoded (io : Backend) :
    (∀ (v w : Value) (s : List Value),
      (v.is_array && v.array.is_chars) = false →
      IoOp.run .Var io (v :: s) = .error "Argument to var must be a string" ∧
      IoOp.run .FReadStr io (v :: s) = .error "Path must be a string" ∧
      IoOp.run .FWriteStr io (v :: w :: s) = .error "Path must be a string" ∧
      IoOp.run .FReadBytes io (v :: s) = .error "Path must be a string" ∧
      IoOp.run .FWriteBytes io (v :: w :: s) = .error "Path must be a string" ∧
      IoOp.run .FLines io (v :: s) = .error "Path must be a string" ∧
      IoOp.run .FExists io (v :: s) = .error "Path must be a string" ∧
      IoOp.run .FListDir io (v :: s) = .error "Path must be a string" ∧
      IoOp.run .FIsFile io (v :: s) = .error "Path must be a string" ∧
      IoOp.run .Import io (v :: s) = .error "Path to import must be a string" ∧
      IoOp.run .ImRead io (v :: s) = .error "Path must be a string" ∧
      IoOp.run .ImWrite io (v :: w :: s) = .error "Path must be a string") ∧
    (∀ (sh : List Nat) (cs : List Char) (s : List Value),
      IoOp.run .Var io (.arr ⟨sh, .chars cs⟩ :: s) =
        .ok (Value.ofString ((io.varFn (String.mk cs)).getD "") :: s, []) ∧
      IoOp.run .FExists io (.arr ⟨sh, .chars cs⟩ :: s) =
        .ok (Value.ofBool (io.fileExists (String.mk cs)) :: s, []) ∧
      (∀ e, io.readFile (String.mk cs) = .error e →
        IoOp.run .FReadStr io (.arr ⟨sh, .chars cs⟩ :: s) = .error e ∧
        IoOp.run .FReadBytes io (.arr ⟨sh, .chars cs⟩ :: s) = .error e ∧
        IoOp.run .FLines io (.arr ⟨sh, .chars cs⟩ :: s) = .error e ∧
        IoOp.run .ImRead io (.arr ⟨sh, .chars cs⟩ :: s) = .error e) ∧
      (∀ e, io.listDir (String.mk cs) = .error e →
        IoOp.run .FListDir io (.arr ⟨sh, .chars cs⟩ :: s) = .error e) ∧
      (∀ e, io.isFile (String.mk cs) = .error e →
        IoOp.run .FIsFile io (.arr ⟨sh, .chars cs⟩ :: s) = .error e) ∧
      (∀ e, io.importFn (String.mk cs) = .error e →
        IoOp.run .Import io (.arr ⟨sh, .chars cs⟩ :: s) = .error e) ∧
      (∀ (sh2 : List Nat) (ds : List Char) (e : String),
        io.writeFile (String.mk cs) (utf8Encode (String.mk ds)) = .error e →
        IoOp.run .FWriteStr io
          (.arr ⟨sh, .chars cs⟩ :: .arr ⟨sh2, .chars ds⟩ :: s) = .error e) ∧
      (∀ (sh2 : List Nat) (xs : List Nat) (e : String),
        io.writeFile (String.mk cs) xs = .error e →
        IoOp.run .FWriteBytes io
          (.arr ⟨sh, .chars cs⟩ :: .arr ⟨sh2, .bytes xs⟩ :: s) = .error e) ∧
      (∀ (b : Nat) (e : String),
        io.writeFile (String.mk cs)
            (encodeImage ⟨1, 1, 1, [b]⟩ (imwriteFormat (extOf (String.mk cs)))) =
          .error e →
        IoOp.run .ImWrite io
          (.arr ⟨sh, .chars cs⟩ :: .arr ⟨[1, 1, 1], .bytes [b]⟩ :: s) =
          .error e)) := by
  constructor
  · intro v w s hv
    refine ⟨?_, ?_, ?_, ?_, ?_, ?_, ?_, ?_, ?_, ?_, ?_, ?_⟩ <;>
      simp [IoOp.run, pop1, strArg, hv]
  · intro sh cs s
    refine ⟨rfl, rfl, fun e he => ⟨?_, ?_, ?_, ?_⟩, fun e he => ?_,
      fun e he => ?_, fun e he => ?_, fun sh2 ds e he => ?_,
      fun sh2 xs e he => ?_, fun b e he => ?_⟩ <;>
      simp [IoOp.run, pop1, strArg, Value.is_array, Value.array,
        UArray.is_chars, UArray.chars, UArray.is_numbers, UArray.is_bytes,
        Value.into_array, UArray.into_bytes, UArray.bytesBuf, Value.display,
        value_to_image_bytes, value_to_image, UArray.rank, UArray.numbers,
        imageFromRaw, he]

/-- Witness for C8: on the sample backend, `var` of a numeric value raises
the type error and `fexists` of the string `"p"` consults the backend at
`"p"`. -/
theorem string_args_checked_and_decoded_witness :
    IoOp.run .Var sampleBackend [Value.ofNum 0] =
      .error "Argument to var must be a string" ∧
    IoOp.run .FExists sampleBackend [Value.ofString "p"] =
      .ok ([Value.ofBool false], []) := by
  constructor
  · exact ((string_args_checked_and_decoded sampleBackend).1
      (Value.ofNum 0) (Value.ofNum 0) [] rfl).1
  · exact ((string_args_checked_and_decoded sampleBackend).2
      ["p".data.length] "p".data []).2.1

/-- C5 amended: `fwritestr` accepts exactly character-array contents (the
display text is written); `fwritebytes` accepts numeric contents (cast
element-wise with `as u8`) and byte contents (written unchanged) but
rejects character arrays; any other contents raises an error. -/
theorem fwrite_contents_acceptance (io : Backend) (shp sh2 : List Nat)
    (pcs : List Char) (s : List Value) :
    (∀ ds : List Char,
      io.writeFile (String.mk pcs) (utf8Encode (String.mk ds)) = .ok () →
      IoOp.run .FWriteStr io
          (.arr ⟨shp, .chars pcs⟩ :: .arr ⟨sh2, .chars ds⟩ :: s) =
        .ok (s, [.wrote (String.mk pcs) (utf8Encode (String.mk ds))])) ∧
    (∀ xs : List ℚ,
      io.writeFile (String.mk pcs) (xs.map f64AsU8) = .ok () →
      IoOp.run .FWriteBytes io
          (.arr ⟨shp, .chars pcs⟩ :: .arr ⟨sh2, .nums xs⟩ :: s) =
        .ok (s, [.wrote (String.mk pcs) (xs.map f64AsU8)])) ∧
    (∀ ys : List Nat,
      io.writeFile (String.mk pcs) ys = .ok () →
      IoOp.run .FWriteBytes io
          (.arr ⟨shp, .chars pcs⟩ :: .arr ⟨sh2, .bytes ys⟩ :: s) =
        .ok (s, [.wrote (String.mk pcs) ys])) ∧
    (∀ xs : List ℚ,
      IoOp.run .FWriteStr io
          (.arr ⟨shp, .chars pcs⟩ :: .arr ⟨sh2, .nums xs⟩ :: s) =
        .error "Contents must be a string") ∧
    (∀ ys : List Nat,
      IoOp.run .FWriteStr io
          (.arr ⟨shp, .chars pcs⟩ :: .arr ⟨sh2, .bytes ys⟩ :: s) =
        .error "Contents must be a string") ∧
    (∀ ds : List Char,
      IoOp.run .FWriteBytes io
          (.arr ⟨shp, .chars pcs⟩ :: .arr ⟨sh2, .chars ds⟩ :: s) =
        .error "Contents must be a numeric array") ∧
    (∀ ss : List String,
      IoOp.run .FWriteStr io
          (.arr ⟨shp, .chars pcs⟩ :: .arr ⟨sh2, .strs ss⟩ :: s) =
        .error "Contents must be a string" ∧
      IoOp.run .FWriteBytes io
          (.arr ⟨shp, .chars pcs⟩ :: .arr ⟨sh2, .strs ss⟩ :: s) =
        .error "Contents must be a numeric array") ∧
    (∀ k : Nat,
      IoOp.run .FWriteStr io (.arr ⟨shp, .chars pcs⟩ :: .func k :: s) =
        .error "Contents must be a string" ∧
      IoOp.run .FWriteBytes io (.arr ⟨shp, .chars pcs⟩ :: .func k :: s) =
        .error "Contents must be an array") := by
  refine ⟨fun ds h => ?_, fun xs h => ?_, fun ys h => ?_, fun xs => ?_,
    fun ys => ?_, fun ds => ?_, fun ss => ⟨?_, ?_⟩, fun k => ⟨?_, ?_⟩⟩ <;>
    simp [IoOp.run, pop1, Value.is_array, Value.array, UArray.is_chars,
      Value.into_array, UArray.is_numbers, UArray.is_bytes, UArray.chars,
      UArray.into_numbers, UArray.numbers, UArray.into_bytes, UArray.bytesBuf,
      Value.display, *]

/-- Witness for C5: on the sample backend (whose writes succeed),
`fwritestr` writes the text of char contents. -/
theorem fwrite_contents_acceptance_witness :
    IoOp.run .FWriteStr sampleBackend
        [Value.ofString "f", Value.ofString "hi"] =
      .ok ([], [.wrote "f" (utf8Encode "hi")]) :=
  (fwrite_contents_acceptance sampleBackend ["f".data.length]
    ["hi".data.length] "f".data []).1 "hi".data rfl

/-- C6 counterexample: a rank-3 character array whose last dimension is 2
raises the type error "Image must be a rank 3 numeric array", not the
invalid-image-channels error the claim promises for every rank-3 array. -/
theorem image_channels_error_counterexample :
    value_to_image (.arr ⟨[1, 1, 2], .chars ['a', 'b']⟩) =
      .error "Image must be a rank 3 numeric array" ∧
    "Image must be a rank 3 numeric array" ≠
      "The last dimension of an image array must be 1, 3, or 4, but it is 2" :=
  ⟨by rfl, by decide⟩

/-- C6 amended: for every rank-3 numeric or byte array, a last dimension
other than 1, 3, or 4 raises the invalid-image-channels error naming that
dimension; a numeric array is converted element-wise by `floor(x*255)`
clamped to `[0, 255]`; a byte array's elements pass through unchanged. -/
theorem value_to_image_conversion (a b n : Nat) (xs : List ℚ) (ys : List Nat) :
    (n ≠ 1 → n ≠ 3 → n ≠ 4 →
      value_to_image (.arr ⟨[a, b, n], .nums xs⟩) =
        .error ("The last dimension of an image array must be 1, 3, or 4, but it is "
          ++ toString n) ∧
      value_to_image (.arr ⟨[a, b, n], .bytes ys⟩) =
        .error ("The last dimension of an image array must be 1, 3, or 4, but it is "
          ++ toString n)) ∧
    ((n = 1 ∨ n = 3 ∨ n = 4) → xs.length = a * b * n →
      value_to_image (.arr ⟨[a, b, n], .nums xs⟩) =
        .ok ⟨n, a, b, xs.map fun f => f64AsU8 (f * 255)⟩) ∧
    ((n = 1 ∨ n = 3 ∨ n = 4) → ys.length = a * b * n →
      value_to_image (.arr ⟨[a, b, n], .bytes ys⟩) = .ok ⟨n, a, b, ys⟩) := by
  refine ⟨fun h1 h3 h4 => ?_, fun hn hlen => ?_, fun hn hlen => ?_⟩
  · have e1 : (n == 1) = false := beq_eq_false_iff_ne.mpr h1
    have e3 : (n == 3) = false := beq_eq_false_iff_ne.mpr h3
    have e4 : (n == 4) = false := beq_eq_false_iff_ne.mpr h4
    constructor <;>
      simp [value_to_image, Value.is_array, Value.array, UArray.rank,
        UArray.is_numbers, UArray.is_bytes, UArray.numbers, UArray.bytesBuf,
        e1, e3, e4]
  · rcases hn with h | h | h <;> subst h <;>
      simp [value_to_image, Value.is_array, Value.array, UArray.rank,
        UArray.is_numbers, UArray.is_bytes, UArray.numbers, UArray.bytesBuf,
        imageFromRaw, hlen]
  · rcases hn with h | h | h <;> subst h <;>
      simp [value_to_image, Value.is_array, Value.array, UArray.rank,
        UArray.is_numbers, UArray.is_bytes, UArray.numbers, UArray.bytesBuf,
        imageFromRaw, hlen]

/-- Witness for C6 at concrete inputs: last dimension 2 raises the
channels error for a byte array; an RGB numeric pixel is scaled, floored
and clamped. -/
theorem value_to_image_conversion_witness :
    value_to_image (.arr ⟨[1, 1, 2], .bytes [5, 6]⟩) =
      .error ("The last dimension of an image array must be 1, 3, or 4, but it is "
        ++ toString 2) ∧
    value_to_image (.arr ⟨[1, 1, 3], .nums [0, 2, (1 : ℚ)/2]⟩) =
      .ok ⟨3, 1, 1, [0, 255, 127]⟩ := by
  constructor
  · exact ((value_to_image_conversion 1 1 2 [] [5, 6]).1
      (by decide) (by decide) (by decide)).2
  · have h := (value_to_image_conversion 1 1 3 [0, 2, (1 : ℚ)/2] []).2.1
      (Or.inr (Or.inl rfl)) (by decide)
    rw [h]
    norm_num [f64AsU8, intAsU8]
    decide

/-- C3 counterexample: writing a single-pixel gray byte array (shape
`[1, 1, 1]`) to a png and reading it back yields the RGBA array of shape
`[1, 1, 4]` — `imread` always produces a `[H, W, 4]` array — which differs
from the array written. -/
theorem image_roundtrip_counterexample :
    imwriteBytes (.arr ⟨[1, 1, 1], .bytes [7]⟩) "o.png" = .ok [1, 1, 1, 1, 7] ∧
    imreadValue [1, 1, 1, 1, 7] =
      .ok (.arr ⟨[1, 1, 4], .bytes [7, 7, 7, 255]⟩) ∧
    Value.arr ⟨[1, 1, 4], .bytes [7, 7, 7, 255]⟩ ≠
      .arr ⟨[1, 1, 1], .bytes [7]⟩ :=
  ⟨by rfl, by rfl, by decide⟩

/-- C3 amended: the image round trip holds for square RGBA byte arrays —
for every byte array of shape `[n, n, 4]` with a full buffer and a path
with a lossless extension, `imread(imwrite(a, path))` equals `a`. (For
channel counts 1 and 3 the read-back array has last dimension 4, and for
non-square RGBA arrays the leading dimensions come back swapped, since
`value_to_image` reads the shape as `[width, height, channels]` while
`imread` builds `[height, width, 4]`.) -/
theorem image_roundtrip_square_rgba (path : String) (n : Nat) (xs : List Nat)
    (_hfmt : extOf path = "png" ∨ extOf path = "bmp" ∨ extOf path = "tiff")
    (hlen : xs.length = n * n * 4) :
    ∃ bs, imwriteBytes (.arr ⟨[n, n, 4], .bytes xs⟩) path = .ok bs ∧
      imreadValue bs = .ok (.arr ⟨[n, n, 4], .bytes xs⟩) := by
  have himg : value_to_image (.arr ⟨[n, n, 4], .bytes xs⟩) =
      .ok ⟨4, n, n, xs⟩ := by
    simp [value_to_image, Value.is_array, Value.array, UArray.rank,
      UArray.is_numbers, UArray.is_bytes, UArray.bytesBuf, imageFromRaw, hlen]
  have hrgba : DynImage.into_rgba8 ⟨4, n, n, xs⟩ = ⟨4, n, n, xs⟩ := rfl
  refine ⟨(imwriteFormat (extOf path)).tag :: 4 :: n :: n :: xs, ?_, ?_⟩
  · unfold imwriteBytes value_to_image_bytes
    rw [himg]
    rfl
  · unfold imreadValue load_from_memory
    simp [hlen, hrgba]

/-- Witness for C3 at a concrete square RGBA pixel written to `a.png`. -/
theorem image_roundtrip_square_rgba_witness :
    ∃ bs,
      imwriteBytes (.arr ⟨[1, 1, 4], .bytes [9, 8, 7, 6]⟩) "a.png" = .ok bs ∧
      imreadValue bs = .ok (.arr ⟨[1, 1, 4], .bytes [9, 8, 7, 6]⟩) :=
  image_roundtrip_square_rgba "a.png" 1 [9, 8, 7, 6] (Or.inl (by rfl)) (by rfl)
